import Mathlib

/-!
Shallow embedding of `compose2kube` (`src/main.go`): the per-service
translation from a docker-compose service definition to a Kubernetes
ReplicaSet descriptor, together with proofs about the field-mapping rules
(ports, environment, volumes, restart policy, descriptor assembly).

The Go string primitives used by `main.go` (`strings.Trim`, `strings.TrimSpace`,
`strings.Contains`, `strings.Split`, `strings.Replace`, `strconv.ParseInt`)
are embedded first, specialised to the ways the source calls them
(single-character cutsets, separators and needles).
-/

set_option linter.dupNamespace false

namespace Compose2kube

/-- Go `unicode.IsSpace`: the Unicode White_Space property, listed by code
point exactly as the Go standard library recognises it. -/
def goIsSpace (c : Char) : Bool :=
  let n := c.toNat
  if (9 ≤ n ∧ n ≤ 13) ∨ n = 32 ∨ n = 133 ∨ n = 160 ∨ n = 5760 ∨
     (8192 ≤ n ∧ n ≤ 8202) ∨ n = 8232 ∨ n = 8233 ∨ n = 8239 ∨ n = 8287 ∨ n = 12288
  then true else false

/-- Go `strings.Trim(s, cutset)` with a single-character cutset: remove all
leading and all trailing occurrences of `c`. -/
def goTrimChar (s : String) (c : Char) : String :=
  ⟨((s.data.dropWhile (fun x => x == c)).reverse.dropWhile (fun x => x == c)).reverse⟩

/-- Go `strings.TrimSpace(s)`: remove all leading and trailing White_Space
code points. -/
def goTrimSpace (s : String) : String :=
  ⟨((s.data.dropWhile goIsSpace).reverse.dropWhile goIsSpace).reverse⟩

/-- Go `strings.Contains(s, sub)` for a single-character `sub` (the source
only ever tests containment of `":"` and `"="`). -/
def goContainsChar (s : String) (c : Char) : Bool :=
  s.data.any (fun x => x == c)

/-- Go `strings.Split(s, sep)` on a list of characters, for a
single-character separator: split around every occurrence of `c`.
`goSplitChar c l` always has `count c l + 1` fields; the empty list
yields `[[]]`, as Go's `Split("", sep)` yields `[""]`. -/
def goSplitChar (c : Char) : List Char → List (List Char)
  | [] => [[]]
  | x :: xs =>
    if x == c then [] :: goSplitChar c xs
    else
      match goSplitChar c xs with
      | [] => [[x]]
      | y :: ys => (x :: y) :: ys

/-- Go `strings.Split(s, sep)` for a single-character separator, on strings. -/
def goSplit (s : String) (c : Char) : List String :=
  (goSplitChar c s.data).map (fun l => ⟨l⟩)

/-- Go `strings.Replace(s, old, "", -1)` for a single-character `old`:
delete every occurrence of `c` (the source deletes every `"/"`). -/
def goDeleteChar (s : String) (c : Char) : String :=
  ⟨s.data.filter (fun x => x != c)⟩

/-- Accumulator loop of base-10 digit parsing: fails on the first
non-digit character, otherwise folds the digits into `acc`. -/
def parseDigitsAcc : List Char → Nat → Option Nat
  | [], acc => some acc
  | c :: cs, acc =>
    if c.isDigit then parseDigitsAcc cs (acc * 10 + (c.toNat - 48)) else none

/-- Go `strconv.ParseInt(s, 10, 32)`: an optional single leading sign
followed by at least one decimal digit, rejecting any other character and
any value outside the signed 32-bit range.  `none` models the non-nil
error return. -/
def goParseInt32 (s : String) : Option Int :=
  match s.data with
  | [] => none
  | '+' :: rest =>
    match rest with
    | [] => none
    | _ =>
      match parseDigitsAcc rest 0 with
      | none => none
      | some n => if n ≤ 2147483647 then some (Int.ofNat n) else none
  | '-' :: rest =>
    match rest with
    | [] => none
    | _ =>
      match parseDigitsAcc rest 0 with
      | none => none
      | some n => if n ≤ 2147483648 then some (-(Int.ofNat n)) else none
  | l =>
    match parseDigitsAcc l 0 with
    | none => none
    | some n => if n ≤ 2147483647 then some (Int.ofNat n) else none

/-! ## Data model

The input shape consumed from `libcompose` (`service.Image`,
`service.Command`, `service.Ports`, `service.Environment`,
`service.Volumes`, `service.Restart`) and the Kubernetes API objects
populated by `main.go`, restricted to the fields the program writes. -/

/-- The fields of a `libcompose` service config that `main.go` reads. -/
structure ServiceConfig where
  Image : String
  Command : List String
  Ports : List String
  Environment : List String
  Volumes : List String
  Restart : String
  deriving DecidableEq, Repr

/-- `api.ContainerPort`, restricted to the one field the program sets. -/
structure ContainerPort where
  ContainerPort : Int
  deriving DecidableEq, Repr

/-- `api.EnvVar`. -/
structure EnvVar where
  Name : String
  Value : String
  deriving DecidableEq, Repr

/-- `api.VolumeMount`. -/
structure VolumeMount where
  Name : String
  ReadOnly : Bool
  MountPath : String
  deriving DecidableEq, Repr

/-- `api.Volume` with its `HostPath` volume source: the program always sets
`VolumeSource.HostPath.Path`, flattened here to `HostPath`. -/
structure Volume where
  Name : String
  HostPath : String
  deriving DecidableEq, Repr

/-- `api.RestartPolicy` values used by the program. -/
inductive RestartPolicy where
  | Always
  | Never
  | OnFailure
  deriving DecidableEq, Repr

/-- `api.Container`, restricted to the fields the program sets. -/
structure Container where
  Name : String
  Image : String
  Command : List String
  Ports : List ContainerPort
  Env : List EnvVar
  VolumeMounts : List VolumeMount
  deriving DecidableEq, Repr

/-- The `extensions.ReplicaSet` fields populated by `main.go`: object
metadata name and labels, the pod template labels, replica count, the pod
spec's containers, volumes and restart policy.  `TypeMeta` is constant
(`"ReplicaSet"` / `"extensions/v1beta1"`) and carries no logic, so it is
not modelled. -/
structure ReplicaSet where
  Name : String
  Labels : List (String × String)
  TemplateLabels : List (String × String)
  Replicas : Nat
  Containers : List Container
  Volumes : List Volume
  RestartPolicy : RestartPolicy
  deriving DecidableEq, Repr

/-- The abnormal terminations of the per-service loop in `main.go`:
`log.Fatalf` on an unparsable port, `log.Fatalf` on an unknown restart
policy, and the Go runtime panic `index out of range` raised by the
unguarded `parts[1]` access when a volume string splits into fewer than
two parts (the panic is not a `log.Fatalf` diagnostic; it is modelled as
its own error constructor). -/
inductive TranslateErr where
  | invalidPort (service : String) (port : String)
  | unknownRestartPolicy (service : String) (value : String)
  | indexOutOfRange
  deriving DecidableEq, Repr

instance {ε α : Type} [DecidableEq ε] [DecidableEq α] : DecidableEq (Except ε α) := fun x y =>
  match x, y with
  | .ok a, .ok b =>
    if h : a = b then .isTrue (congrArg Except.ok h)
    else .isFalse (fun hc => h (Except.ok.inj hc))
  | .error a, .error b =>
    if h : a = b then .isTrue (congrArg Except.error h)
    else .isFalse (fun hc => h (Except.error.inj hc))
  | .ok _, .error _ => .isFalse (fun hc => Except.noConfusion hc)
  | .error _, .ok _ => .isFalse (fun hc => Except.noConfusion hc)

/-- `true` exactly on the `error` constructor. -/
def isError {ε α : Type} : Except ε α → Bool
  | .error _ => true
  | .ok _ => false

/-! ## The translator (`main.go` lines 70–195, per service) -/

/-- Lines 108–109: `port = strings.Trim(port, "\"")` then
`port = strings.TrimSpace(port)`. -/
def cleanPort (raw : String) : String :=
  goTrimSpace (goTrimChar raw '\"')

/-- Lines 110–113: if the cleaned string contains `":"`, replace it by the
second field of the split on `":"` (`parts[1]`; the index is in range
because the string contains a colon). -/
def portField (port : String) : String :=
  if goContainsChar port ':' then (goSplit port ':').getD 1 "" else port

/-- The whole per-entry port pipeline, lines 108–114: clean, extract the
container-port field, parse as a base-10 signed 32-bit integer. -/
def mapPort (raw : String) : Option Int :=
  goParseInt32 (portField (cleanPort raw))

/-- The port loop, lines 105–119: builds the container port list in source
order, aborting with `InvalidPort` (naming the service and the processed
port string) at the first entry that fails to parse. -/
def mapPorts (name : String) : List String → Except TranslateErr (List ContainerPort)
  | [] => .ok []
  | p :: rest =>
    match goParseInt32 (portField (cleanPort p)) with
    | none => .error (.invalidPort name (portField (cleanPort p)))
    | some n =>
      match mapPorts name rest with
      | .error e => .error e
      | .ok l => .ok ({ ContainerPort := n } :: l)

/-- The environment loop, lines 123–131: entries containing `"="` are
split on `"="` and contribute `(parts[0], parts[1])`; entries without
`"="` are dropped. -/
def mapEnv : List String → List EnvVar
  | [] => []
  | env :: rest =>
    if goContainsChar env '=' then
      { Name := (goSplit env '=').getD 0 "", Value := (goSplit env '=').getD 1 "" }
        :: mapEnv rest
    else mapEnv rest

/-- The option scan, lines 143–152: a `switch` over each of `parts[2:]`
(the `break` statements only leave the `switch`, so the loop always runs to
the end and the last recognised token wins). -/
def scanReadOnly : List String → Bool → Bool
  | [], b => b
  | opt :: rest, b =>
    scanReadOnly rest (if opt = "ro" then true else if opt = "rw" then false else b)

/-- `partReadOnly` for one volume entry, lines 141–153: `false` by default,
then the scan over `parts[2:]` (when there is no third part the scanned
list is empty and the default stands). -/
def volumeReadOnly (parts : List String) : Bool :=
  scanReadOnly (parts.drop 2) false

/-- The `api.VolumeMount` built from one volume string, lines 154–158
(both arms of the `len(parts) > 2` conditional append the identical
value). -/
def mkMount (volumestr : String) : VolumeMount :=
  let parts := goSplit volumestr ':'
  { Name := goDeleteChar (parts.getD 0 "") '/',
    ReadOnly := volumeReadOnly parts,
    MountPath := parts.getD 1 "" }

/-- The `api.Volume` built from one volume string, lines 160–164. -/
def mkVolume (volumestr : String) : Volume :=
  let parts := goSplit volumestr ':'
  { Name := goDeleteChar (parts.getD 0 "") '/', HostPath := parts.getD 0 "" }

/-- The volume loop, lines 135–165: each entry is split on `":"`; an entry
with fewer than two parts makes the `parts[1]` access on line 140 panic
(`indexOutOfRange`); otherwise one `VolumeMount` and one `Volume` are
appended, in source order. -/
def mapVolumes : List String → Except TranslateErr (List VolumeMount × List Volume)
  | [] => .ok ([], [])
  | v :: rest =>
    if (goSplit v ':').length < 2 then .error .indexOutOfRange
    else
      match mapVolumes rest with
      | .error e => .error e
      | .ok (vm, vs) => .ok (mkMount v :: vm, mkVolume v :: vs)

/-- The restart-policy `switch`, lines 170–179: `""` and `"always"` map to
`Always`, `"no"` to `Never`, `"on-failure"` to `OnFailure`, anything else
is the fatal `UnknownRestartPolicy` naming the service and the value. -/
def mapRestartPolicy (name : String) (restart : String) : Except TranslateErr RestartPolicy :=
  if restart = "" then .ok .Always
  else if restart = "always" then .ok .Always
  else if restart = "no" then .ok .Never
  else if restart = "on-failure" then .ok .OnFailure
  else .error (.unknownRestartPolicy name restart)

/-- One iteration of the service loop, lines 70–179: the ReplicaSet
skeleton (name, `{"service": name}` labels on the object and the pod
template, `Replicas: 1`, a single container carrying the image and command
verbatim) filled in with the mapped ports, env, volumes and restart
policy.  Any fatal outcome aborts the service's translation. -/
def translate (name : String) (svc : ServiceConfig) : Except TranslateErr ReplicaSet :=
  match mapPorts name svc.Ports with
  | .error e => .error e
  | .ok ports =>
    match mapVolumes svc.Volumes with
    | .error e => .error e
    | .ok (vm, vols) =>
      match mapRestartPolicy name svc.Restart with
      | .error e => .error e
      | .ok pol =>
        .ok { Name := name
              Labels := [("service", name)]
              TemplateLabels := [("service", name)]
              Replicas := 1
              Containers := [{ Name := name
                               Image := svc.Image
                               Command := svc.Command
                               Ports := ports
                               Env := mapEnv svc.Environment
                               VolumeMounts := vm }]
              Volumes := vols
              RestartPolicy := pol }

/-- The outer loop of `main`, lines 64–195, over the services in key
order: each service is translated and its descriptor collected; any
`log.Fatalf` (or panic) aborts the whole run at that service, translating
none of the later ones. -/
def runServices : List (String × ServiceConfig) → Except TranslateErr (List ReplicaSet)
  | [] => .ok []
  | (name, svc) :: rest =>
    match translate name svc with
    | .error e => .error e
    | .ok rs =>
      match runServices rest with
      | .error e => .error e
      | .ok rss => .ok (rs :: rss)

/-- Sink value for `Container` list indexing in theorem statements. -/
def defaultContainer : Container :=
  { Name := "", Image := "", Command := [], Ports := [], Env := [], VolumeMounts := [] }

/-- Sink value for `VolumeMount` list indexing in theorem statements. -/
def defaultMount : VolumeMount := { Name := "", ReadOnly := false, MountPath := "" }

/-- Sink value for `Volume` list indexing in theorem statements. -/
def defaultVolume : Volume := { Name := "", HostPath := "" }

/-- The spec's end-to-end example service: image `nginx`, one mapped port,
one env pair, one read-only volume, empty restart string. -/
def svcWeb : ServiceConfig :=
  { Image := "nginx", Command := ["run"], Ports := ["8080:80"],
    Environment := ["DEBUG=true"], Volumes := ["/host/data:/data:ro"], Restart := "" }

/-- The descriptor the translator produces for `svcWeb`. -/
def rsWeb : ReplicaSet :=
  { Name := "web"
    Labels := [("service", "web")]
    TemplateLabels := [("service", "web")]
    Replicas := 1
    Containers := [{ Name := "web"
                     Image := "nginx"
                     Command := ["run"]
                     Ports := [{ ContainerPort := 80 }]
                     Env := [{ Name := "DEBUG", Value := "true" }]
                     VolumeMounts := [{ Name := "hostdata", ReadOnly := true, MountPath := "/data" }] }]
    Volumes := [{ Name := "hostdata", HostPath := "/host/data" }]
    RestartPolicy := .Always }

/-- A service whose single port string fails integer parsing. -/
def svcBad : ServiceConfig :=
  { Image := "nginx", Command := [], Ports := ["abc"],
    Environment := [], Volumes := [], Restart := "" }

/-- A service whose single port string is a quoted `53` padded with
whitespace. -/
def svc53 : ServiceConfig :=
  { Image := "nginx", Command := [], Ports := [" \"53\" "],
    Environment := [], Volumes := [], Restart := "" }

/-- A service with an unrecognised restart value. -/
def svcSometimes : ServiceConfig :=
  { Image := "nginx", Command := [], Ports := [],
    Environment := [], Volumes := [], Restart := "sometimes" }

/-- A service whose single volume string has no colon. -/
def svcNoColon : ServiceConfig :=
  { Image := "nginx", Command := [], Ports := [],
    Environment := [], Volumes := ["novolume"], Restart := "" }

/-! ## Spec-side port mapping

An independent rendering of the spec's description of the port rule
("strip surrounding double-quote characters, then strip surrounding
whitespace, then, if a colon is present, take the second colon-separated
field, and parse the result as a base-10 32-bit signed integer"), written
with its own trimming and field-extraction primitives, to be compared
with the code-side `mapPort`. -/

/-- Remove the longest prefix of characters satisfying `p`. -/
def specTrimLeading (p : Char → Bool) : List Char → List Char
  | [] => []
  | c :: cs => if p c then specTrimLeading p cs else c :: cs

/-- Remove the longest suffix of characters satisfying `p`. -/
def specTrimTrailing (p : Char → Bool) (l : List Char) : List Char :=
  (specTrimLeading p l.reverse).reverse

/-- "Strip surrounding double-quote characters". -/
def specStripQuotes (s : String) : String :=
  ⟨specTrimTrailing (fun x => x == '\"') (specTrimLeading (fun x => x == '\"') s.data)⟩

/-- "Strip surrounding whitespace". -/
def specStripSpace (s : String) : String :=
  ⟨specTrimTrailing goIsSpace (specTrimLeading goIsSpace s.data)⟩

/-- "The second colon-separated field": the text strictly between the
first colon and the following colon or end of string. -/
def specSecondColonField (s : String) : String :=
  ⟨((s.data.dropWhile (fun x => x != ':')).drop 1).takeWhile (fun x => x != ':')⟩

/-- The port rule as the spec words it. -/
def specPortMapping (raw : String) : Option Int :=
  if goContainsChar (specStripSpace (specStripQuotes raw)) ':' then
    goParseInt32 (specSecondColonField (specStripSpace (specStripQuotes raw)))
  else goParseInt32 (specStripSpace (specStripQuotes raw))

/-! ## Helper lemmas -/

theorem dropWhile_eq_specTrimLeading (p : Char → Bool) (l : List Char) :
    l.dropWhile p = specTrimLeading p l := by
  induction l with
  | nil => rfl
  | cons c cs ih => simp only [List.dropWhile_cons, specTrimLeading, ih]

theorem goSplitChar_ne_nil (c : Char) (l : List Char) : goSplitChar c l ≠ [] := by
  induction l with
  | nil => simp [goSplitChar]
  | cons x xs ih =>
    simp only [goSplitChar]
    split
    · simp
    · cases h : goSplitChar c xs with
      | nil => exact absurd h ih
      | cons y ys => simp [h]

theorem goSplitChar_head (c : Char) (l : List Char) :
    (goSplitChar c l).getD 0 [] = l.takeWhile (fun x => x != c) := by
  induction l with
  | nil => rfl
  | cons x xs ih =>
    by_cases hx : (x == c) = true
    · have hbf : (x != c) = false := by simp [bne, hx]
      simp [goSplitChar, hx, List.takeWhile_cons, hbf]
    · have hbt : (x != c) = true := by simp [bne, hx]
      cases hr : goSplitChar c xs with
      | nil => exact absurd hr (goSplitChar_ne_nil c xs)
      | cons y ys =>
        rw [hr] at ih
        simp only [List.getD_cons_zero] at ih
        simp [goSplitChar, hx, hr, List.takeWhile_cons, hbt, ih]

theorem goSplitChar_second (c : Char) (l : List Char) (h : l.any (fun x => x == c) = true) :
    (goSplitChar c l).getD 1 [] =
      ((l.dropWhile (fun x => x != c)).drop 1).takeWhile (fun x => x != c) := by
  induction l with
  | nil => simp at h
  | cons x xs ih =>
    by_cases hx : (x == c) = true
    · have hbf : (x != c) = false := by simp [bne, hx]
      have h1 : goSplitChar c (x :: xs) = [] :: goSplitChar c xs := by
        simp [goSplitChar, hx]
      have hd : List.dropWhile (fun x => x != c) (x :: xs) = x :: xs := by
        simp [List.dropWhile_cons, hbf]
      rw [h1, hd]
      show (goSplitChar c xs).getD 0 [] = xs.takeWhile (fun x => x != c)
      exact goSplitChar_head c xs
    · have hbt : (x != c) = true := by simp [bne, hx]
      have hany : xs.any (fun x => x == c) = true := by
        simp only [List.any_cons, Bool.or_eq_true] at h
        rcases h with h | h
        · exact absurd h hx
        · exact h
      have hd : List.dropWhile (fun x => x != c) (x :: xs) =
          List.dropWhile (fun x => x != c) xs := by
        simp [List.dropWhile_cons, hbt]
      rw [hd]
      cases hr : goSplitChar c xs with
      | nil => exact absurd hr (goSplitChar_ne_nil c xs)
      | cons y ys =>
        have h1 : goSplitChar c (x :: xs) = (x :: y) :: ys := by
          simp [goSplitChar, hx, hr]
        rw [h1]
        have ihh := ih hany
        rw [hr] at ihh
        exact ihh

theorem goSplitChar_length_ge_one (c : Char) (l : List Char) :
    1 ≤ (goSplitChar c l).length := by
  cases h : goSplitChar c l with
  | nil => exact absurd h (goSplitChar_ne_nil c l)
  | cons y ys => simp

theorem goSplitChar_length_ge_two (c : Char) (l : List Char)
    (h : l.any (fun x => x == c) = true) : 2 ≤ (goSplitChar c l).length := by
  induction l with
  | nil => simp at h
  | cons x xs ih =>
    by_cases hx : (x == c) = true
    · have h1 : goSplitChar c (x :: xs) = [] :: goSplitChar c xs := by
        simp [goSplitChar, hx]
      rw [h1]
      have := goSplitChar_length_ge_one c xs
      simp only [List.length_cons]
      omega
    · have hany : xs.any (fun x => x == c) = true := by
        simp only [List.any_cons, Bool.or_eq_true] at h
        rcases h with h | h
        · exact absurd h hx
        · exact h
      cases hr : goSplitChar c xs with
      | nil => exact absurd hr (goSplitChar_ne_nil c xs)
      | cons y ys =>
        have h1 : goSplitChar c (x :: xs) = (x :: y) :: ys := by
          simp [goSplitChar, hx, hr]
        rw [h1]
        have ihh := ih hany
        rw [hr] at ihh
        simp only [List.length_cons] at ihh ⊢
        omega

theorem getD_map {α β : Type} (f : α → β) (l : List α) (i : Nat) (d : β) (e : α)
    (h : i < l.length) : (l.map f).getD i d = f (l.getD i e) := by
  induction l generalizing i with
  | nil => simp at h
  | cons x xs ih =>
    cases i with
    | zero => simp
    | succ j =>
      simp only [List.map_cons, List.getD_cons_succ]
      exact ih j (by simpa using h)

theorem cleanPort_eq_spec (raw : String) :
    cleanPort raw = specStripSpace (specStripQuotes raw) := by
  unfold cleanPort specStripSpace specStripQuotes goTrimSpace goTrimChar specTrimTrailing
  simp only [← dropWhile_eq_specTrimLeading]

theorem portField_eq_second (port : String) (h : goContainsChar port ':' = true) :
    portField port = specSecondColonField port := by
  have h2 : port.data.any (fun x => x == ':') = true := h
  have hlen : 2 ≤ (goSplitChar ':' port.data).length :=
    goSplitChar_length_ge_two ':' port.data h2
  unfold portField
  rw [if_pos h]
  unfold goSplit specSecondColonField
  rw [getD_map (fun l => (⟨l⟩ : String)) _ 1 "" [] (by omega)]
  rw [goSplitChar_second ':' port.data h2]

/-- The code's port pipeline computes exactly what the spec's wording
describes: strip quotes, then whitespace, then take the second
colon-separated field when a colon is present, then parse. -/
theorem mapPort_eq_specPortMapping (raw : String) :
    mapPort raw = specPortMapping raw := by
  unfold mapPort specPortMapping
  rw [← cleanPort_eq_spec]
  by_cases h : goContainsChar (cleanPort raw) ':' = true
  · rw [if_pos h, portField_eq_second (cleanPort raw) h]
  · rw [if_neg h]
    unfold portField
    rw [if_neg h]

theorem mapVolumes_ok (vols : List String) (vm : List VolumeMount) (vs : List Volume)
    (h : mapVolumes vols = .ok (vm, vs)) :
    vm = vols.map mkMount ∧ vs = vols.map mkVolume := by
  induction vols generalizing vm vs with
  | nil =>
    simp only [mapVolumes, Except.ok.injEq, Prod.mk.injEq] at h
    obtain ⟨h1, h2⟩ := h
    simp [← h1, ← h2]
  | cons v rest ih =>
    simp only [mapVolumes] at h
    split at h
    · exact absurd h (by simp)
    · cases hr : mapVolumes rest with
      | error e => rw [hr] at h; simp at h
      | ok pr =>
        obtain ⟨vm0, vs0⟩ := pr
        rw [hr] at h
        simp only [Except.ok.injEq, Prod.mk.injEq] at h
        obtain ⟨hvm, hvs⟩ := h
        obtain ⟨h1, h2⟩ := ih vm0 vs0 hr
        subst h1 h2
        simp [← hvm, ← hvs]

theorem mapVolumes_ok_parts (vols : List String) (vm : List VolumeMount) (vs : List Volume)
    (h : mapVolumes vols = .ok (vm, vs)) :
    ∀ v ∈ vols, 2 ≤ (goSplit v ':').length := by
  induction vols generalizing vm vs with
  | nil => simp
  | cons v rest ih =>
    simp only [mapVolumes] at h
    split at h
    · exact absurd h (by simp)
    · intro w hw
      cases hr : mapVolumes rest with
      | error e => rw [hr] at h; simp at h
      | ok pr =>
        rcases List.mem_cons.mp hw with heq | hmem
        · subst heq
          omega
        · exact ih pr.1 pr.2 (by rw [hr]) w hmem

theorem mapPorts_ok_length (name : String) (ports : List String) (l : List ContainerPort)
    (h : mapPorts name ports = .ok l) : l.length = ports.length := by
  induction ports generalizing l with
  | nil =>
    simp only [mapPorts, Except.ok.injEq] at h
    simp [← h]
  | cons p rest ih =>
    simp only [mapPorts] at h
    cases hp : goParseInt32 (portField (cleanPort p)) with
    | none => rw [hp] at h; simp at h
    | some n =>
      rw [hp] at h
      cases hr : mapPorts name rest with
      | error e => rw [hr] at h; simp at h
      | ok l0 =>
        rw [hr] at h
        simp only [Except.ok.injEq] at h
        have := ih l0 hr
        simp [← h, this]

theorem mapPorts_error_of_bad (name : String) (ports : List String)
    (hbad : ∃ p, p ∈ ports ∧ mapPort p = none) :
    isError (mapPorts name ports) = true := by
  induction ports with
  | nil => simp at hbad
  | cons p rest ih =>
    obtain ⟨q, hq, hqn⟩ := hbad
    simp only [mapPorts]
    cases hp : goParseInt32 (portField (cleanPort p)) with
    | none => simp [isError]
    | some n =>
      have hq2 : q ∈ rest := by
        rcases List.mem_cons.mp hq with heq | hmem
        · subst heq
          unfold mapPort at hqn
          rw [hp] at hqn
          exact absurd hqn (by simp)
        · exact hmem
      have hrec := ih ⟨q, hq2, hqn⟩
      cases hr : mapPorts name rest with
      | error e => simp [isError]
      | ok l0 => rw [hr] at hrec; simp [isError] at hrec

theorem translate_ok_inv (name : String) (svc : ServiceConfig) (rs : ReplicaSet)
    (h : translate name svc = .ok rs) :
    ∃ ports vm vols pol,
      mapPorts name svc.Ports = .ok ports ∧
      mapVolumes svc.Volumes = .ok (vm, vols) ∧
      mapRestartPolicy name svc.Restart = .ok pol ∧
      rs = { Name := name
             Labels := [("service", name)]
             TemplateLabels := [("service", name)]
             Replicas := 1
             Containers := [{ Name := name
                              Image := svc.Image
                              Command := svc.Command
                              Ports := ports
                              Env := mapEnv svc.Environment
                              VolumeMounts := vm }]
             Volumes := vols
             RestartPolicy := pol } := by
  unfold translate at h
  cases hp : mapPorts name svc.Ports with
  | error e => rw [hp] at h; simp at h
  | ok ports =>
    rw [hp] at h
    cases hv : mapVolumes svc.Volumes with
    | error e => rw [hv] at h; simp at h
    | ok pr =>
      obtain ⟨vm, vols⟩ := pr
      rw [hv] at h
      cases hr : mapRestartPolicy name svc.Restart with
      | error e => rw [hr] at h; simp at h
      | ok pol =>
        rw [hr] at h
        simp only [Except.ok.injEq] at h
        exact ⟨ports, vm, vols, pol, rfl, rfl, rfl, h.symm⟩

theorem translate_error_of_ports (name : String) (svc : ServiceConfig)
    (h : isError (mapPorts name svc.Ports) = true) :
    isError (translate name svc) = true := by
  unfold translate
  cases hp : mapPorts name svc.Ports with
  | error e => simp [isError]
  | ok ports => rw [hp] at h; simp [isError] at h

theorem translate_error_of_restart (name : String) (svc : ServiceConfig)
    (h : isError (mapRestartPolicy name svc.Restart) = true) :
    isError (translate name svc) = true := by
  unfold translate
  cases hp : mapPorts name svc.Ports with
  | error e => simp [isError]
  | ok ports =>
    cases hv : mapVolumes svc.Volumes with
    | error e => simp [isError]
    | ok pr =>
      obtain ⟨vm, vols⟩ := pr
      cases hr : mapRestartPolicy name svc.Restart with
      | error e => simp [isError]
      | ok pol => rw [hr] at h; simp [isError] at h

theorem runServices_error_of_bad (svcs : List (String × ServiceConfig))
    (h : ∃ entry, entry ∈ svcs ∧ ∃ p, p ∈ entry.2.Ports ∧ mapPort p = none) :
    isError (runServices svcs) = true := by
  induction svcs with
  | nil => simp at h
  | cons hd rest ih =>
    obtain ⟨entry, hmem, hbad⟩ := h
    obtain ⟨name, svc⟩ := hd
    simp only [runServices]
    cases ht : translate name svc with
    | error e => simp [isError]
    | ok rs =>
      have hrest : ∃ entry, entry ∈ rest ∧ ∃ p, p ∈ entry.2.Ports ∧ mapPort p = none := by
        rcases List.mem_cons.mp hmem with heq | hmem2
        · exfalso
          subst heq
          have herr := translate_error_of_ports name svc
            (mapPorts_error_of_bad name svc.Ports hbad)
          rw [ht] at herr
          simp [isError] at herr
        · exact ⟨entry, hmem2, hbad⟩
      have hrec := ih hrest
      cases hr : runServices rest with
      | error e => simp [isError]
      | ok rss => rw [hr] at hrec; simp [isError] at hrec

theorem scanReadOnly_append_ro (pre : List String) (b : Bool) :
    scanReadOnly (pre ++ ["ro"]) b = true := by
  induction pre generalizing b with
  | nil => simp [scanReadOnly]
  | cons o os ih =>
    simp only [List.cons_append, scanReadOnly]
    exact ih _

theorem scanReadOnly_append_rw (pre : List String) (b : Bool) :
    scanReadOnly (pre ++ ["rw"]) b = false := by
  induction pre generalizing b with
  | nil => simp [scanReadOnly]
  | cons o os ih =>
    simp only [List.cons_append, scanReadOnly]
    exact ih _

/-! ## The claims -/

/-- Claim C1, counterexample: the claim asserts that the raw port string
`" \x22\x3553\x22 "` (a quoted `53` padded with spaces) maps to container
port `53`.  On the code it does not: quote-trimming runs before
whitespace-trimming, so the surrounding spaces shield the quotes, parsing
fails, and the service dies with the `InvalidPort` fatal
(`Invalid container port "53" for service web`). -/
theorem claim_C1_counterexample :
    mapPort " \"53\" " ≠ some 53 ∧
    mapPort " \"53\" " = none ∧
    translate "web" svc53 = .error (.invalidPort "web" "\"53\"") := by
  refine ⟨?_, ?_, ?_⟩ <;> decide

/-- Claim C1, amended: for every raw port string, the port mapping first
strips surrounding double-quote characters, then strips surrounding
whitespace, then (if a colon is present) takes the second colon-separated
field, and parses the result as a base-10 32-bit signed integer;
`"8080:80"` maps to container port `80`, `"80"` maps to `80`, and both
`"abc"` and the quoted-and-padded string `" \x22\x3553\x22 "` cause a fatal
InvalidPort error for the service (for the latter because the surrounding
whitespace prevents the quote-stripping pass from removing the quotes). -/
theorem claim_C1 (raw : String) :
    mapPort raw = specPortMapping raw ∧
    mapPort "8080:80" = some 80 ∧
    mapPort "80" = some 80 ∧
    mapPort "abc" = none ∧
    mapPort " \"53\" " = none ∧
    isError (translate "web" svcBad) = true ∧
    isError (translate "web" svc53) = true := by
  refine ⟨mapPort_eq_specPortMapping raw, ?_, ?_, ?_, ?_, ?_, ?_⟩ <;> decide

/-- Claim C2: an environment entry containing `'='` contributes the pair
of the first and second fields of the split on `'='` (so `"KEY=VALUE"`
yields `("KEY","VALUE")` and `"KEY=A=B"` yields `("KEY","A")`, truncating
after the second `'='`); an entry without `'='` is silently dropped; the
order of kept entries is preserved. -/
theorem claim_C2 (e : String) (l : List String) :
    (goContainsChar e '=' = false → mapEnv (e :: l) = mapEnv l) ∧
    (goContainsChar e '=' = true →
      mapEnv (e :: l) =
        { Name := (goSplit e '=').getD 0 "", Value := (goSplit e '=').getD 1 "" }
          :: mapEnv l) ∧
    mapEnv ["KEY=VALUE"] = [{ Name := "KEY", Value := "VALUE" }] ∧
    mapEnv ["KEY=A=B"] = [{ Name := "KEY", Value := "A" }] ∧
    mapEnv ["NOEQUALS"] = [] := by
  refine ⟨?_, ?_, by decide, by decide, by decide⟩
  · intro h
    simp [mapEnv, h]
  · intro h
    simp [mapEnv, h]

theorem claim_C2_witness :
    goContainsChar "KEY=VALUE" '=' = true ∧
    mapEnv ("KEY=VALUE" :: ["NOEQUALS"]) =
      { Name := (goSplit "KEY=VALUE" '=').getD 0 "",
        Value := (goSplit "KEY=VALUE" '=').getD 1 "" } :: mapEnv ["NOEQUALS"] ∧
    goContainsChar "NOEQUALS" '=' = false ∧
    mapEnv ("NOEQUALS" :: []) = mapEnv [] :=
  ⟨by decide, (claim_C2 "KEY=VALUE" ["NOEQUALS"]).2.1 (by decide), by decide,
   (claim_C2 "NOEQUALS" []).1 (by decide)⟩

/-- Claim C3: the restart-policy mapping is the exact case-sensitive
finite function `"" ↦ Always`, `"always" ↦ Always`, `"no" ↦ Never`,
`"on-failure" ↦ OnFailure`, and every other value is the fatal
`UnknownRestartPolicy` naming the service and the value, which aborts the
service's translation; the `Except` codomain admits no other outcome. -/
theorem claim_C3 (name r : String) (svc : ServiceConfig) :
    ((r = "" ∨ r = "always") → mapRestartPolicy name r = .ok .Always) ∧
    (r = "no" → mapRestartPolicy name r = .ok .Never) ∧
    (r = "on-failure" → mapRestartPolicy name r = .ok .OnFailure) ∧
    (r ≠ "" → r ≠ "always" → r ≠ "no" → r ≠ "on-failure" →
      mapRestartPolicy name r = .error (.unknownRestartPolicy name r)) ∧
    (svc.Restart = r → isError (mapRestartPolicy name r) = true →
      isError (translate name svc) = true) := by
  refine ⟨?_, ?_, ?_, ?_, ?_⟩
  · rintro (h | h) <;> subst h
    · unfold mapRestartPolicy
      rw [if_pos rfl]
    · unfold mapRestartPolicy
      rw [if_neg (by decide), if_pos rfl]
  · intro h
    subst h
    unfold mapRestartPolicy
    rw [if_neg (by decide), if_neg (by decide), if_pos rfl]
  · intro h
    subst h
    unfold mapRestartPolicy
    rw [if_neg (by decide), if_neg (by decide), if_neg (by decide), if_pos rfl]
  · intro h1 h2 h3 h4
    unfold mapRestartPolicy
    rw [if_neg h1, if_neg h2, if_neg h3, if_neg h4]
  · intro he hi
    apply translate_error_of_restart
    rw [he]
    exact hi

theorem claim_C3_witness :
    mapRestartPolicy "web" "always" = .ok .Always ∧
    mapRestartPolicy "web" "no" = .ok .Never ∧
    mapRestartPolicy "web" "on-failure" = .ok .OnFailure ∧
    mapRestartPolicy "web" "sometimes" = .error (.unknownRestartPolicy "web" "sometimes") ∧
    isError (translate "web" svcSometimes) = true :=
  ⟨(claim_C3 "web" "always" svcWeb).1 (Or.inr rfl),
   (claim_C3 "web" "no" svcWeb).2.1 rfl,
   (claim_C3 "web" "on-failure" svcWeb).2.2.1 rfl,
   (claim_C3 "web" "sometimes" svcWeb).2.2.2.1 (by decide) (by decide) (by decide) (by decide),
   (claim_C3 "web" "sometimes" svcSometimes).2.2.2.2 rfl (by decide)⟩

/-- Claim C4: for a successfully translated service, the volume list and
the container's volume-mount list have the source volume list's length,
and at every index `i` both carry the same name — the `i`-th source
entry's host path (first colon-field) with every `/` deleted — while the
volume carries that host path and the mount carries the container path
(second colon-field), in source order. -/
theorem claim_C4 (name : String) (svc : ServiceConfig) (rs : ReplicaSet) (i : Nat)
    (hok : translate name svc = .ok rs) (hi : i < svc.Volumes.length) :
    (rs.Containers.getD 0 defaultContainer).VolumeMounts.length = svc.Volumes.length ∧
    rs.Volumes.length = svc.Volumes.length ∧
    ((rs.Containers.getD 0 defaultContainer).VolumeMounts.getD i defaultMount).Name =
      goDeleteChar ((goSplit (svc.Volumes.getD i "") ':').getD 0 "") '/' ∧
    (rs.Volumes.getD i defaultVolume).Name =
      goDeleteChar ((goSplit (svc.Volumes.getD i "") ':').getD 0 "") '/' ∧
    (rs.Volumes.getD i defaultVolume).HostPath =
      (goSplit (svc.Volumes.getD i "") ':').getD 0 "" ∧
    ((rs.Containers.getD 0 defaultContainer).VolumeMounts.getD i defaultMount).MountPath =
      (goSplit (svc.Volumes.getD i "") ':').getD 1 "" := by
  obtain ⟨ports, vm, vols, pol, hp, hv, hr, hrs⟩ := translate_ok_inv name svc rs hok
  obtain ⟨hvm, hvols⟩ := mapVolumes_ok svc.Volumes vm vols hv
  subst hrs hvm hvols
  refine ⟨?_, ?_, ?_, ?_, ?_, ?_⟩
  · show (svc.Volumes.map mkMount).length = svc.Volumes.length
    simp
  · show (svc.Volumes.map mkVolume).length = svc.Volumes.length
    simp
  · show ((svc.Volumes.map mkMount).getD i defaultMount).Name = _
    rw [getD_map mkMount svc.Volumes i defaultMount "" hi]
    simp [mkMount]
  · show ((svc.Volumes.map mkVolume).getD i defaultVolume).Name = _
    rw [getD_map mkVolume svc.Volumes i defaultVolume "" hi]
    simp [mkVolume]
  · show ((svc.Volumes.map mkVolume).getD i defaultVolume).HostPath = _
    rw [getD_map mkVolume svc.Volumes i defaultVolume "" hi]
    simp [mkVolume]
  · show ((svc.Volumes.map mkMount).getD i defaultMount).MountPath = _
    rw [getD_map mkMount svc.Volumes i defaultMount "" hi]
    simp [mkMount]

theorem claim_C4_witness :
    translate "web" svcWeb = .ok rsWeb ∧
    0 < svcWeb.Volumes.length ∧
    ((rsWeb.Containers.getD 0 defaultContainer).VolumeMounts.length = svcWeb.Volumes.length ∧
     rsWeb.Volumes.length = svcWeb.Volumes.length ∧
     ((rsWeb.Containers.getD 0 defaultContainer).VolumeMounts.getD 0 defaultMount).Name =
       goDeleteChar ((goSplit (svcWeb.Volumes.getD 0 "") ':').getD 0 "") '/' ∧
     (rsWeb.Volumes.getD 0 defaultVolume).Name =
       goDeleteChar ((goSplit (svcWeb.Volumes.getD 0 "") ':').getD 0 "") '/' ∧
     (rsWeb.Volumes.getD 0 defaultVolume).HostPath =
       (goSplit (svcWeb.Volumes.getD 0 "") ':').getD 0 "" ∧
     ((rsWeb.Containers.getD 0 defaultContainer).VolumeMounts.getD 0 defaultMount).MountPath =
       (goSplit (svcWeb.Volumes.getD 0 "") ':').getD 1 "") :=
  ⟨by decide, by decide, claim_C4 "web" svcWeb rsWeb 0 (by decide) (by decide)⟩

/-- Claim C5: for a volume entry with at least two colon-separated parts
the read-only flag defaults to `false`; all parts from index 2 onward are
scanned, `"ro"` setting the flag and `"rw"` clearing it, the last
recognised token winning and unrecognised tokens ignored — so
`"/a:/b:ro"` is read-only, `"/a:/b:rw"` is not, and `"/a:/b:ro:rw"` is
not. -/
theorem claim_C5 (parts : List String) (pre : List String) (o : String)
    (rest : List String) (b : Bool) :
    (parts.length = 2 → volumeReadOnly parts = false) ∧
    scanReadOnly (pre ++ ["ro"]) b = true ∧
    scanReadOnly (pre ++ ["rw"]) b = false ∧
    (o ≠ "ro" → o ≠ "rw" → scanReadOnly (o :: rest) b = scanReadOnly rest b) ∧
    mapVolumes ["/a:/b:ro"] =
      .ok ([{ Name := "a", ReadOnly := true, MountPath := "/b" }],
           [{ Name := "a", HostPath := "/a" }]) ∧
    mapVolumes ["/a:/b:rw"] =
      .ok ([{ Name := "a", ReadOnly := false, MountPath := "/b" }],
           [{ Name := "a", HostPath := "/a" }]) ∧
    mapVolumes ["/a:/b:ro:rw"] =
      .ok ([{ Name := "a", ReadOnly := false, MountPath := "/b" }],
           [{ Name := "a", HostPath := "/a" }]) ∧
    mapVolumes ["/a:/b"] =
      .ok ([{ Name := "a", ReadOnly := false, MountPath := "/b" }],
           [{ Name := "a", HostPath := "/a" }]) := by
  refine ⟨?_, scanReadOnly_append_ro pre b, scanReadOnly_append_rw pre b, ?_,
    by decide, by decide, by decide, by decide⟩
  · intro h
    unfold volumeReadOnly
    rw [List.drop_eq_nil_of_le (by omega)]
    rfl
  · intro h1 h2
    simp [scanReadOnly, h1, h2]

theorem claim_C5_witness :
    (["/a", "/b"] : List String).length = 2 ∧
    volumeReadOnly ["/a", "/b"] = false ∧
    "opt" ≠ "ro" ∧
    "opt" ≠ "rw" ∧
    scanReadOnly ("opt" :: ["ro"]) false = scanReadOnly ["ro"] false :=
  ⟨by decide, (claim_C5 ["/a", "/b"] [] "opt" ["ro"] false).1 (by decide),
   by decide, by decide,
   (claim_C5 ["/a", "/b"] [] "opt" ["ro"] false).2.2.2.1 (by decide) (by decide)⟩

/-- Claim C6: every successfully produced descriptor has labels exactly
`{"service": name}` (on the object and on the pod template), replica
count the constant 1, and exactly one container, named after the service,
with the service's image and command copied verbatim. -/
theorem claim_C6 (name : String) (svc : ServiceConfig) (rs : ReplicaSet)
    (hok : translate name svc = .ok rs) :
    rs.Labels = [("service", name)] ∧
    rs.TemplateLabels = [("service", name)] ∧
    rs.Replicas = 1 ∧
    rs.Containers.length = 1 ∧
    (rs.Containers.getD 0 defaultContainer).Name = name ∧
    (rs.Containers.getD 0 defaultContainer).Image = svc.Image ∧
    (rs.Containers.getD 0 defaultContainer).Command = svc.Command := by
  obtain ⟨ports, vm, vols, pol, hp, hv, hr, hrs⟩ := translate_ok_inv name svc rs hok
  subst hrs
  simp

theorem claim_C6_witness :
    translate "web" svcWeb = .ok rsWeb ∧
    (rsWeb.Labels = [("service", "web")] ∧
     rsWeb.TemplateLabels = [("service", "web")] ∧
     rsWeb.Replicas = 1 ∧
     rsWeb.Containers.length = 1 ∧
     (rsWeb.Containers.getD 0 defaultContainer).Name = "web" ∧
     (rsWeb.Containers.getD 0 defaultContainer).Image = svcWeb.Image ∧
     (rsWeb.Containers.getD 0 defaultContainer).Command = svcWeb.Command) :=
  ⟨by decide, claim_C6 "web" svcWeb rsWeb (by decide)⟩

/-- Claim C7: on success the volume-mount list, the volume list and the
source volume list have equal length, and the port list has the source
port list's length; a port entry that fails to parse makes the whole run
(the loop over all services) abort with an error instead of producing a
shortened port list. -/
theorem claim_C7 (name : String) (svc : ServiceConfig) (rs : ReplicaSet)
    (svcs : List (String × ServiceConfig)) (entry : String × ServiceConfig)
    (badPort : String) :
    (translate name svc = .ok rs →
      ((rs.Containers.getD 0 defaultContainer).VolumeMounts.length = rs.Volumes.length ∧
       rs.Volumes.length = svc.Volumes.length ∧
       (rs.Containers.getD 0 defaultContainer).Ports.length = svc.Ports.length)) ∧
    (entry ∈ svcs → badPort ∈ entry.2.Ports → mapPort badPort = none →
      isError (runServices svcs) = true) := by
  constructor
  · intro hok
    obtain ⟨ports, vm, vols, pol, hp, hv, hr, hrs⟩ := translate_ok_inv name svc rs hok
    obtain ⟨hvm, hvols⟩ := mapVolumes_ok svc.Volumes vm vols hv
    have hpl := mapPorts_ok_length name svc.Ports ports hp
    subst hrs hvm hvols
    simp [hpl]
  · intro hmem hbp hnone
    exact runServices_error_of_bad svcs ⟨entry, hmem, badPort, hbp, hnone⟩

theorem claim_C7_witness :
    translate "web" svcWeb = .ok rsWeb ∧
    ((rsWeb.Containers.getD 0 defaultContainer).VolumeMounts.length = rsWeb.Volumes.length ∧
     rsWeb.Volumes.length = svcWeb.Volumes.length ∧
     (rsWeb.Containers.getD 0 defaultContainer).Ports.length = svcWeb.Ports.length) ∧
    ("bad", svcBad) ∈ [("bad", svcBad)] ∧
    "abc" ∈ ("bad", svcBad).2.Ports ∧
    mapPort "abc" = none ∧
    isError (runServices [("bad", svcBad)]) = true :=
  ⟨by decide,
   (claim_C7 "web" svcWeb rsWeb [("bad", svcBad)] ("bad", svcBad) "abc").1 (by decide),
   by decide, by decide, by decide,
   (claim_C7 "web" svcWeb rsWeb [("bad", svcBad)] ("bad", svcBad) "abc").2
     (by decide) (by decide) (by decide)⟩

/-- Claim C8, code behaviour at the failing input: a volume entry without
a colon splits into a single part, and the program's unguarded `parts[1]`
access raises the runtime panic modelled by `indexOutOfRange` — it does
not produce the fatal `InvalidVolume` diagnostic the claim describes
(the code has no such error path at all). -/
theorem claim_C8_code_behavior :
    goSplit "novolume" ':' = ["novolume"] ∧
    (goSplit "novolume" ':').length < 2 ∧
    mapVolumes ["novolume"] = .error .indexOutOfRange ∧
    translate "web" svcNoColon = .error .indexOutOfRange := by
  refine ⟨?_, ?_, ?_, ?_⟩ <;> decide

/-- Claim C9: whenever the cleaned port string contains a colon, the code
parses exactly the second field of the full split on `':'` — for
`"a:b:c"` it attempts to parse `"b"` (and fails), ignoring every later
field, while `"1:2:3"` parses to `2`. -/
theorem claim_C9 (raw : String) (h : goContainsChar (cleanPort raw) ':' = true) :
    mapPort raw = goParseInt32 ((goSplit (cleanPort raw) ':').getD 1 "") ∧
    (goSplit "a:b:c" ':').getD 1 "" = "b" ∧
    mapPort "a:b:c" = none ∧
    mapPort "1:2:3" = some 2 := by
  refine ⟨?_, by decide, by decide, by decide⟩
  unfold mapPort portField
  rw [if_pos h]

theorem claim_C9_witness :
    goContainsChar (cleanPort "a:b:c") ':' = true ∧
    mapPort "a:b:c" = goParseInt32 ((goSplit (cleanPort "a:b:c") ':').getD 1 "") :=
  ⟨by decide, (claim_C9 "a:b:c" (by decide)).1⟩

/-- Claim C10: an environment entry beginning with `'='` is not dropped —
it contains the separator, so the mapping appends a pair whose key is the
empty string (the first split field) and whose value is the second split
field, the text between the first `'='` and the next `'='` or the end of
the entry; `"=VALUE"` yields `("", "VALUE")`. -/
theorem claim_C10 (e : String) (tl : List Char) (rest : List String)
    (h : e.data = '=' :: tl) :
    mapEnv (e :: rest) =
      { Name := "", Value := (goSplit e '=').getD 1 "" } :: mapEnv rest ∧
    mapEnv ["=VALUE"] = [{ Name := "", Value := "VALUE" }] := by
  constructor
  · have hcontains : goContainsChar e '=' = true := by
      unfold goContainsChar
      rw [h]
      simp
    have h1 : goSplitChar '=' ('=' :: tl) = [] :: goSplitChar '=' tl := by
      simp [goSplitChar]
    have hsplit : goSplit e '=' = "" :: (goSplitChar '=' tl).map (fun l => (⟨l⟩ : String)) := by
      unfold goSplit
      rw [h, h1]
      simp
    simp only [mapEnv]
    rw [hsplit]
    simp [hcontains]
  · decide

theorem claim_C10_witness :
    ("=VALUE" : String).data = '=' :: ("VALUE" : String).data ∧
    mapEnv ("=VALUE" :: ["A=B"]) =
      { Name := "", Value := (goSplit "=VALUE" '=').getD 1 "" } :: mapEnv ["A=B"] :=
  ⟨by decide, (claim_C10 "=VALUE" ("VALUE" : String).data ["A=B"] (by decide)).1⟩

end Compose2kube
